import Mathlib

/-!
Verification development for the planar path boolean-combination engine of
`src/external/chromium/third_party/skia/experimental/Intersection/ShapeOps.cpp`
and the autofill scanner of
`src/external/chromium/chrome/browser/autofill/autofill_scanner.cc`.

The repository ships only `ShapeOps.cpp` itself; the file `Simplify.cpp`
(textually included by `ShapeOps.cpp`) with the `Segment`, `Contour`,
`PathWrapper` internals is not part of the sources.  The control flow of the
functions that are in the sources — `operate`, `bridgeOp`,
`findSortableTopNew`, `findChaseOp`, and the contour pair loop — is embedded
faithfully below; every call into the missing `Simplify.cpp` code is modelled
as a consultation of an oracle (`Oracle` / `Engine`), one oracle record per
loop iteration, so that any behaviour of the missing code corresponds to some
oracle.  Debug assertions (`SkASSERT`) are counted in an `asserts` field.
-/

namespace ShapeOps

/-- Shape operators, mirroring the `ShapeOp` enum of the source
(`kDifference_Op`, `kIntersect_Op`, `kUnion_Op`, `kXor_Op`). -/
inductive ShapeOp where
  | kDifference_Op
  | kIntersect_Op
  | kUnion_Op
  | kXor_Op
deriving DecidableEq

/-- A point, mirroring `SkPoint` (coordinates kept abstract as integers;
only equality of points is observable in the embedded control flow). -/
structure SkPoint where
  x : Int
  y : Int
deriving DecidableEq

/-- Path fill types, mirroring `SkPath::FillType` (only the two fill rules
that the engine distinguishes are modelled). -/
inductive FillType where
  | kWinding_FillType
  | kEvenOdd_FillType
deriving DecidableEq

/-- Curve verbs, mirroring `SkPath::Verb` for drawing commands. -/
inductive SkVerb where
  | kLine_Verb
  | kQuad_Verb
  | kCubic_Verb
deriving DecidableEq

/-- One emitted curve piece: its verb and its two parametric endpoints.
The interior control points play no role in the embedded control flow. -/
structure CurvePiece where
  verb : SkVerb
  startPt : SkPoint
  endPt : SkPoint
deriving DecidableEq

/-- Elements of an `SkPath`: move, curve, close. -/
inductive PathElem where
  | moveTo (p : SkPoint)
  | curveTo (c : CurvePiece)
  | close
deriving DecidableEq

/-- A path: a fill type plus the ordered list of path elements, mirroring
`SkPath` as observed by the engine (`reset`, `setFillType`, appends). -/
structure SkPath where
  fillType : FillType
  elems : List PathElem
deriving DecidableEq

/-- Modelled from the spec: `PathWrapper` (declared in the missing
`Simplify.cpp`/`Simplify.h`) accumulates the output contour under
construction.  `addCurveTo` emits an implicit `moveTo` on the first curve of
a contour; a contour `isClosed` when its last point has returned to its first
point (spec 4.7 "trace returns to its own start point"); `close` emits a
close verb and resets the per-contour state. -/
structure PathWrapper where
  elems : List PathElem
  firstPt : Option SkPoint
  lastPt : Option SkPoint
  hasMove : Bool
deriving DecidableEq

/-- The empty wrapper wrapping a freshly reset result path. -/
def PathWrapper.init : PathWrapper :=
  ⟨[], none, none, false⟩

/-- Whether the contour under construction has returned to its start. -/
def PathWrapper.isClosed (w : PathWrapper) : Bool :=
  w.hasMove && (w.lastPt == w.firstPt)

/-- Append one curve piece, emitting the contour's `moveTo` if needed. -/
def PathWrapper.addCurveTo (w : PathWrapper) (c : CurvePiece) : PathWrapper :=
  if w.hasMove then
    ⟨w.elems ++ [PathElem.curveTo c], w.firstPt, some c.endPt, true⟩
  else
    ⟨w.elems ++ [PathElem.moveTo c.startPt, PathElem.curveTo c],
      some c.startPt, some c.endPt, true⟩

/-- Close the contour under construction (no-op when nothing was emitted). -/
def PathWrapper.close (w : PathWrapper) : PathWrapper :=
  if w.hasMove then ⟨w.elems ++ [PathElem.close], none, none, false⟩ else w

/-- A current tracing position: segment id, span start index, span end index
(the triple `(current, index, endIndex)` threaded through `bridgeOp`). -/
abbrev Cur := Nat × Nat × Nat

/-- One recorded winding-sum assignment made by `findSortableTopNew`:
either the first-contour seed `initWinding(index, endIndex, 0, 0)`, or a sum
derived from an already-assigned neighbor (`computeSum`), or a pair derived
from the `innerContourCheck` containment ray-casts. -/
inductive WindingAssign where
  | seeded (winding oppWinding : Int)
  | neighbor (sum : Int)
  | containment (contourWinding oppContourWinding : Int)
deriving DecidableEq

/-- Modelled from the spec: one record of answers for every call that the
embedded control flow makes into the missing `Simplify.cpp` code during one
loop iteration.  `none` plays the role of the `SK_MinS32` "unassigned"
sentinel for winding queries and of a null pointer for segment queries. -/
structure Oracle where
  /-- `findSortableTop(...)`: the topmost-leftmost candidate span, if any. -/
  findTop : Option Cur
  /-- the `unsortable` out-parameter set by `findSortableTop`. -/
  findTopUnsortable : Bool
  /-- `current->windSum(minIndex)`. -/
  windSum : Option Int
  /-- `current->computeSum(index, endIndex, true)`. -/
  computeSum : Option Int
  /-- `innerContourCheck(..., false)`. -/
  innerContour : Option Int
  /-- `innerContourCheck(..., true)`. -/
  innerContourOpp : Option Int
  /-- `current->activeOp(index, endIndex, xorMask, xorOpMask, op)`. -/
  activeOp : Bool
  /-- `current->findNextOp(...)`: the next segment to trace, if any. -/
  findNext : Option Cur
  /-- whether `findNextOp` sets the `unsortable` out-parameter. -/
  findNextUnsortable : Bool
  /-- `current->done()` as consulted by `SkASSERT(unsortable || !current->done())`. -/
  segDoneAssert : Bool
  /-- `current->done()` as consulted in the trace loop condition. -/
  segDoneLoop : Bool
  /-- `current->done(min)` in the unclosable-contour branch. -/
  segDoneMin : Bool
  /-- `current->verb() != SkPath::kLine_Verb` test: whether the verb is a line. -/
  verbIsLine : Bool
  /-- the curve geometry emitted by `current->addCurveTo(index, endIndex, simple, true)`. -/
  curve : CurvePiece
  /-- `current->markAndChaseDoneBinary(index, endIndex)`: span to append, if any. -/
  markChase : Option Nat
  /-- inside `findChaseOp`: `segment->activeAngle(...)` success, giving the
  last angle's segment and span indices. -/
  chaseActive : Option Cur
  /-- inside `findChaseOp`: the `done == angles.count()` test. -/
  chaseDoneAll : Bool
  /-- inside `findChaseOp`: the result of `Segment::SortAngles`. -/
  chaseSortable : Bool
  /-- inside `findChaseOp`: the first not-done segment found by the winding
  mark loop over the sorted angles, if any. -/
  chaseFirst : Option Cur
deriving DecidableEq

/-- A benign default oracle record (all queries fail / answer false). -/
def Oracle.quiet : Oracle :=
  ⟨none, false, none, none, none, none, false, none, false,
    false, false, false, true, ⟨SkVerb.kLine_Verb, ⟨0, 0⟩, ⟨0, 0⟩⟩,
    none, none, false, true, none⟩

/-- Modelled from the spec: everything the missing `Simplify.cpp` code
contributes to one `operate` call — the `EdgeBuilder`/`makeContourList`
decomposition of the two input paths into contours of segments, the
continuation flag returned by `addIntersectTs` for each contour pair, and
the per-iteration oracle stream consumed by the winding and tracing phases. -/
structure Engine where
  /-- `EdgeBuilder`/`makeContourList`: the contour list built from the two
  operand paths; each contour is the list of its segment ids. -/
  build : SkPath → SkPath → List (List Nat)
  /-- the boolean returned by `addIntersectTs(current, next)`, consulted with
  its own call counter. -/
  addIntersectTs : Nat → Bool
  /-- the oracle stream for the winding/tracing phases. -/
  oracle : Nat → Oracle

/-- Result of the embedded `findSortableTopNew` (source lines 132–176). -/
structure FstOut where
  cur : Option Cur
  firstContour : Bool
  topUnsortable : Bool
  assign : Option WindingAssign
  asserts : Nat
  k : Nat
deriving DecidableEq

/-- The retry loop of `findSortableTopNew` (source lines 137–171), followed
by the `SkASSERT(0)` at line 174 that is reached when the loop breaks with no
current segment after at least one successful iteration: the comment at
lines 172–173 records that the ray-cast fallback for that case is missing.
One oracle record is consumed per loop iteration. -/
def findSortableTopNewGo (e : Nat → Oracle) (firstContour first : Bool) (k : Nat) :
    Nat → FstOut
  | 0 => ⟨none, firstContour, false, none, 0, k⟩
  | fuel + 1 =>
    let o := e k
    match o.findTop with
    | none =>
      if first then
        ⟨none, firstContour, o.findTopUnsortable, none, 0, k + 1⟩
      else
        ⟨none, firstContour, o.findTopUnsortable, none, 1, k + 1⟩
    | some cur =>
      if firstContour then
        ⟨some cur, false, o.findTopUnsortable, some (WindingAssign.seeded 0 0), 0, k + 1⟩
      else
        match o.windSum with
        | none =>
          match o.computeSum with
          | some s =>
            ⟨some cur, false, o.findTopUnsortable, some (WindingAssign.neighbor s), 0, k + 1⟩
          | none =>
            match o.innerContour with
            | none => findSortableTopNewGo e firstContour false (k + 1) fuel
            | some w =>
              match o.innerContourOpp with
              | none => findSortableTopNewGo e firstContour false (k + 1) fuel
              | some ow =>
                ⟨some cur, false, o.findTopUnsortable,
                  some (WindingAssign.containment w ow), 0, k + 1⟩
        | some _ =>
          match o.innerContour with
          | none => findSortableTopNewGo e firstContour false (k + 1) fuel
          | some w =>
            match o.innerContourOpp with
            | none => findSortableTopNewGo e firstContour false (k + 1) fuel
            | some ow =>
              ⟨some cur, false, o.findTopUnsortable,
                some (WindingAssign.containment w ow), 0, k + 1⟩

/-- The embedded `findSortableTopNew` entry (source line 132). -/
def findSortableTopNew (e : Nat → Oracle) (firstContour : Bool) (k fuel : Nat) : FstOut :=
  findSortableTopNewGo e firstContour true k fuel

/-- Result of the embedded `findChaseOp` (source lines 20–102). -/
structure ChaseOut where
  cur : Option Cur
  chase : List Nat
  k : Nat
deriving DecidableEq

/-- Split off the last element of a list (`SkTDArray::pop`). -/
def popLast : List Nat → Option (List Nat × Nat)
  | [] => none
  | [x] => some ([], x)
  | x :: y :: xs =>
    match popLast (y :: xs) with
    | some (rest, l) => some (x :: rest, l)
    | none => none

/-- The embedded `findChaseOp` (source lines 20–102): pop deferred spans from
the back of the chase array; on an `activeAngle` hit or a successful winding
mark loop, rotate the span to the front (`TRY_ROTATE`) and return the found
segment, otherwise continue popping.  The winding bookkeeping done by the
mark loop lives entirely in the missing `Simplify.cpp` code and is collapsed
into the `chaseFirst` oracle answer. -/
def findChaseOpGo (e : Nat → Oracle) (chase : List Nat) (k : Nat) : Nat → ChaseOut
  | 0 => ⟨none, chase, k⟩
  | fuel + 1 =>
    match popLast chase with
    | none => ⟨none, [], k⟩
    | some (rest, span) =>
      let o := e k
      match o.chaseActive with
      | some cur => ⟨some cur, span :: rest, k + 1⟩
      | none =>
        if o.chaseDoneAll then
          findChaseOpGo e rest (k + 1) fuel
        else if !o.chaseSortable then
          findChaseOpGo e rest (k + 1) fuel
        else
          match o.chaseFirst with
          | some cur => ⟨some cur, span :: rest, k + 1⟩
          | none => findChaseOpGo e rest (k + 1) fuel

/-- Result of the inner trace loop of `bridgeOp` (source lines 203–230). -/
structure TraceOut where
  wrapper : PathWrapper
  cur : Cur
  unsortable : Bool
  active : Bool
  asserts : Nat
  k : Nat
deriving DecidableEq

/-- The inner trace loop of `bridgeOp` (source lines 203–230): repeatedly ask
`findNextOp` for the next segment, emit the current segment's curve into the
wrapper, and stop when the contour closes, when there is no next segment, or
when an unsortable trace reaches a done segment.  `SkASSERT(unsortable ||
!current->done())` (line 210), `SkASSERT(!unsortable)` (line 216) and
`SkASSERT(simple.isClosed())` (line 221) are counted. -/
def traceLoop (e : Nat → Oracle) (cur : Cur) (w : PathWrapper) (unsortable : Bool)
    (k : Nat) : Nat → TraceOut
  | 0 => ⟨w, cur, unsortable, false, 0, k⟩
  | fuel + 1 =>
    let o := e k
    let a1 : Nat := if unsortable || !o.segDoneAssert then 0 else 1
    let unsortable1 := unsortable || o.findNextUnsortable
    match o.findNext with
    | none =>
      let a2 : Nat := if unsortable1 then 1 else 0
      if !unsortable1 && w.hasMove && !o.verbIsLine && !w.isClosed then
        let w1 := w.addCurveTo o.curve
        let a3 : Nat := if w1.isClosed then 0 else 1
        ⟨w1, cur, unsortable1, false, a1 + a2 + a3, k + 1⟩
      else
        ⟨w, cur, unsortable1, false, a1 + a2, k + 1⟩
    | some nxt =>
      let w1 := w.addCurveTo o.curve
      if !w1.isClosed && (!unsortable1 || !o.segDoneLoop) then
        let r := traceLoop e nxt w1 unsortable1 (k + 1) fuel
        ⟨r.wrapper, r.cur, r.unsortable, r.active, a1 + r.asserts, r.k⟩
      else
        ⟨w1, nxt, unsortable1, true, a1, k + 1⟩

/-- Result of the chase loop of `bridgeOp` (source lines 200–254). -/
structure InnerOut where
  wrapper : PathWrapper
  closable : Bool
  unsortable : Bool
  stalls : Nat
  asserts : Nat
  k : Nat
deriving DecidableEq

/-- The chase loop of `bridgeOp` (source lines 200–254): if the current span
is active for the operator, trace a contour; if the trace stalls with the
contour still open (`active && !simple.isClosed()`), force the one remaining
curve out, mark the result *not closable* and count a stall; always close the
wrapper; if the span is inactive, mark it done and defer its chase span; in
both cases continue from `findChaseOp` until the chase array is exhausted. -/
def bridgeInner (e : Nat → Oracle) (cur : Cur) (chase : List Nat) (w : PathWrapper)
    (closable unsortable : Bool) (stalls asserts k : Nat) : Nat → InnerOut
  | 0 => ⟨w, closable, unsortable, stalls, asserts, k⟩
  | fuel + 1 =>
    let o := e k
    if o.activeOp then
      let t := traceLoop e cur w unsortable (k + 1) fuel
      if t.active && !t.wrapper.isClosed then
        let o2 := e t.k
        let w1 := if !o2.segDoneMin then t.wrapper.addCurveTo o2.curve else t.wrapper
        let w2 := w1.close
        let r := findChaseOpGo e chase (t.k + 1) fuel
        match r.cur with
        | none => ⟨w2, false, t.unsortable, stalls + 1, asserts + t.asserts, r.k⟩
        | some cur2 =>
          bridgeInner e cur2 r.chase w2 false t.unsortable (stalls + 1)
            (asserts + t.asserts) r.k fuel
      else
        let w2 := t.wrapper.close
        let r := findChaseOpGo e chase t.k fuel
        match r.cur with
        | none => ⟨w2, closable, t.unsortable, stalls, asserts + t.asserts, r.k⟩
        | some cur2 =>
          bridgeInner e cur2 r.chase w2 closable t.unsortable stalls
            (asserts + t.asserts) r.k fuel
    else
      let chase1 :=
        match o.markChase with
        | some s => chase ++ [s]
        | none => chase
      let r := findChaseOpGo e chase1 (k + 1) fuel
      match r.cur with
      | none => ⟨w, closable, unsortable, stalls, asserts, r.k⟩
      | some cur2 =>
        bridgeInner e cur2 r.chase w closable unsortable stalls asserts r.k fuel

/-- Result of the embedded `bridgeOp` (source lines 178–257). -/
structure BridgeOut where
  wrapper : PathWrapper
  closable : Bool
  assigns : List WindingAssign
  stalls : Nat
  asserts : Nat
  k : Nat
deriving DecidableEq

/-- The outer loop of `bridgeOp` (source lines 186–255): seek a sortable top
span; when seeking fails with an unsortable top, retry once from scratch
(`SkASSERT(!firstRetry)` at line 193 is counted when the retry repeats);
otherwise run the chase loop on the found span.  Recorded winding
assignments are accumulated in order. -/
def bridgeOuter (e : Nat → Oracle) (firstContour firstRetry closable unsortable : Bool)
    (w : PathWrapper) (assigns : List WindingAssign) (stalls asserts k : Nat) :
    Nat → BridgeOut
  | 0 => ⟨w, closable, assigns, stalls, asserts, k⟩
  | fuel + 1 =>
    let f := findSortableTopNew e firstContour k fuel
    let assigns1 := assigns ++ f.assign.toList
    match f.cur with
    | none =>
      if f.topUnsortable then
        let aR : Nat := if firstRetry then 1 else 0
        bridgeOuter e f.firstContour true closable unsortable w assigns1 stalls
          (asserts + f.asserts + aR) f.k fuel
      else
        ⟨w, closable, assigns1, stalls, asserts + f.asserts, f.k⟩
    | some cur =>
      let i := bridgeInner e cur [] w closable unsortable stalls 0 f.k fuel
      bridgeOuter e f.firstContour firstRetry i.closable i.unsortable i.wrapper assigns1
        i.stalls (asserts + f.asserts + i.asserts) i.k fuel

/-- The embedded `bridgeOp` (source line 178): starts with `firstContour`
true, `closable` true, an empty wrapper, and returns the closable flag along
with everything the run produced. -/
def bridgeOp (e : Nat → Oracle) (fuel : Nat) : BridgeOut :=
  bridgeOuter e true false true false PathWrapper.init [] 0 0 0 fuel

/-- The inner contour pair loop of `operate` (source lines 286–288):
`do { next = *nextPtr++; } while (addIntersectTs(current, next) && nextPtr != listEnd);`
— starting with `next` equal to `current` itself, so the pair `(i, i)` is
always visited first. -/
def intersectInner (e : Engine) (i j n kp : Nat) : Nat → List (Nat × Nat) × Nat
  | 0 => ([], kp)
  | fuel + 1 =>
    let ok := e.addIntersectTs kp
    if ok && !(j + 1 == n) then
      let r := intersectInner e i (j + 1) n (kp + 1) fuel
      ((i, j) :: r.1, r.2)
    else
      ([(i, j)], kp + 1)

/-- The outer contour pair loop of `operate` (source lines 282–289). -/
def intersectOuter (e : Engine) (i n kp : Nat) : Nat → List (Nat × Nat) × Nat
  | 0 => ([], kp)
  | fuel + 1 =>
    let r := intersectInner e i i n kp n
    if !(i + 1 == n) then
      let s := intersectOuter e (i + 1) n r.2 fuel
      (r.1 ++ s.1, s.2)
    else
      r

/-- All contour index pairs visited by the intersection phase of `operate`
for a contour list of length `n`. -/
def intersectAll (e : Engine) (n : Nat) : List (Nat × Nat) :=
  (intersectOuter e 0 n 0 n).1

/-- Everything one `operate` call produces, observable and internal: the
result path written through the out-parameter, the closable flag computed by
`bridgeOp` (which `operate` discards), the contour pairs visited by the
intersection phase, which phases were entered, the recorded winding
assignments, the stalled-contour count and the assertion count. -/
structure OperateTrace where
  result : SkPath
  closable : Bool
  pairs : List (Nat × Nat)
  intersectEntered : Bool
  coincidenceEntered : Bool
  bridgeEntered : Bool
  assigns : List WindingAssign
  stalls : Nat
  asserts : Nat
deriving DecidableEq

/-- The embedded `operate` (source lines 262–312): reset the result and give
it the even-odd fill type; build the contour list; if it is empty, return at
once (`if (!currentPtr) return;`); otherwise run the pairwise intersection
loop, the coincidence phase (entirely in the missing code; only its being
entered is recorded), and `bridgeOp`, whose returned closable flag is
dropped on the floor by the source (`bridgeOp(contourList, op, ...)` as a
statement at line 311). -/
def operateRun (e : Engine) (one two : SkPath) (op : ShapeOp) (fuel : Nat) :
    OperateTrace :=
  match e.build one two with
  | [] => ⟨⟨FillType.kEvenOdd_FillType, []⟩, true, [], false, false, false, [], 0, 0⟩
  | c :: cs =>
    let n := (c :: cs).length
    let pairs := intersectAll e n
    let b := bridgeOp e.oracle fuel
    ⟨⟨FillType.kEvenOdd_FillType, b.wrapper.elems⟩, b.closable, pairs,
      true, true, true, b.assigns, b.stalls, b.asserts⟩

/-- The caller-visible outcome of `operate`: the function returns `void` and
writes only the result path through its out-parameter, so the caller sees
exactly the `SkPath` and nothing else. -/
def operate (e : Engine) (one two : SkPath) (op : ShapeOp) (fuel : Nat) : SkPath :=
  (operateRun e one two op fuel).result

/-- Modelled from the spec: the per-operator boundary predicate of §4.6 —
whether a point with the given inside/outside states for operands A and B
lies in the result region of the operator. -/
def opPredicate (op : ShapeOp) (insideA insideB : Bool) : Bool :=
  match op with
  | ShapeOp.kUnion_Op => insideA || insideB
  | ShapeOp.kIntersect_Op => insideA && insideB
  | ShapeOp.kDifference_Op => insideA && !insideB
  | ShapeOp.kXor_Op => insideA != insideB

/-- Modelled from the spec: the hand-derived active-edge truth table of
§4.6/§8 for `Segment::activeOp` (the table itself lives in the missing
`Simplify.cpp`).  Arguments: operator, operand-A inside before the edge
(`miFrom`), operand-A inside after the edge (`miTo`), operand-B inside
before (`suFrom`), operand-B inside after (`suTo`).  Each of the 64 rows is
transcribed by hand from the operator semantics. -/
def gActiveEdge (op : ShapeOp) (miFrom miTo suFrom suTo : Bool) : Bool :=
  match op, miFrom, miTo, suFrom, suTo with
  | ShapeOp.kUnion_Op, false, false, false, false => false
  | ShapeOp.kUnion_Op, false, false, false, true => true
  | ShapeOp.kUnion_Op, false, false, true, false => true
  | ShapeOp.kUnion_Op, false, false, true, true => false
  | ShapeOp.kUnion_Op, false, true, false, false => true
  | ShapeOp.kUnion_Op, false, true, false, true => true
  | ShapeOp.kUnion_Op, false, true, true, false => false
  | ShapeOp.kUnion_Op, false, true, true, true => false
  | ShapeOp.kUnion_Op, true, false, false, false => true
  | ShapeOp.kUnion_Op, true, false, false, true => false
  | ShapeOp.kUnion_Op, true, false, true, false => true
  | ShapeOp.kUnion_Op, true, false, true, true => false
  | ShapeOp.kUnion_Op, true, true, false, false => false
  | ShapeOp.kUnion_Op, true, true, false, true => false
  | ShapeOp.kUnion_Op, true, true, true, false => false
  | ShapeOp.kUnion_Op, true, true, true, true => false
  | ShapeOp.kIntersect_Op, false, false, false, false => false
  | ShapeOp.kIntersect_Op, false, false, false, true => false
  | ShapeOp.kIntersect_Op, false, false, true, false => false
  | ShapeOp.kIntersect_Op, false, false, true, true => false
  | ShapeOp.kIntersect_Op, false, true, false, false => false
  | ShapeOp.kIntersect_Op, false, true, false, true => true
  | ShapeOp.kIntersect_Op, false, true, true, false => false
  | ShapeOp.kIntersect_Op, false, true, true, true => true
  | ShapeOp.kIntersect_Op, true, false, false, false => false
  | ShapeOp.kIntersect_Op, true, false, false, true => false
  | ShapeOp.kIntersect_Op, true, false, true, false => true
  | ShapeOp.kIntersect_Op, true, false, true, true => true
  | ShapeOp.kIntersect_Op, true, true, false, false => false
  | ShapeOp.kIntersect_Op, true, true, false, true => true
  | ShapeOp.kIntersect_Op, true, true, true, false => true
  | ShapeOp.kIntersect_Op, true, true, true, true => false
  | ShapeOp.kDifference_Op, false, false, false, false => false
  | ShapeOp.kDifference_Op, false, false, false, true => false
  | ShapeOp.kDifference_Op, false, false, true, false => false
  | ShapeOp.kDifference_Op, false, false, true, true => false
  | ShapeOp.kDifference_Op, false, true, false, false => true
  | ShapeOp.kDifference_Op, false, true, false, true => false
  | ShapeOp.kDifference_Op, false, true, true, false => true
  | ShapeOp.kDifference_Op, false, true, true, true => false
  | ShapeOp.kDifference_Op, true, false, false, false => true
  | ShapeOp.kDifference_Op, true, false, false, true => true
  | ShapeOp.kDifference_Op, true, false, true, false => false
  | ShapeOp.kDifference_Op, true, false, true, true => false
  | ShapeOp.kDifference_Op, true, true, false, false => false
  | ShapeOp.kDifference_Op, true, true, false, true => true
  | ShapeOp.kDifference_Op, true, true, true, false => true
  | ShapeOp.kDifference_Op, true, true, true, true => false
  | ShapeOp.kXor_Op, false, false, false, false => false
  | ShapeOp.kXor_Op, false, false, false, true => true
  | ShapeOp.kXor_Op, false, false, true, false => true
  | ShapeOp.kXor_Op, false, false, true, true => false
  | ShapeOp.kXor_Op, false, true, false, false => true
  | ShapeOp.kXor_Op, false, true, false, true => false
  | ShapeOp.kXor_Op, false, true, true, false => false
  | ShapeOp.kXor_Op, false, true, true, true => true
  | ShapeOp.kXor_Op, true, false, false, false => true
  | ShapeOp.kXor_Op, true, false, false, true => false
  | ShapeOp.kXor_Op, true, false, true, false => false
  | ShapeOp.kXor_Op, true, false, true, true => true
  | ShapeOp.kXor_Op, true, true, false, false => false
  | ShapeOp.kXor_Op, true, true, false, true => true
  | ShapeOp.kXor_Op, true, true, true, false => true
  | ShapeOp.kXor_Op, true, true, true, true => false

/-- Modelled from the spec: the active-operator test `IsActive` over winding
sums — a span is inside operand X when its winding sum for X is non-zero
(§4.6), and the edge is active according to the truth table. -/
def IsActive (op : ShapeOp) (wAfrom wBfrom wAto wBto : Int) : Bool :=
  gActiveEdge op (wAfrom != 0) (wAto != 0) (wBfrom != 0) (wBto != 0)

/-- Modelled from the spec: the segment pairs tested by
`addIntersectTs(contour_i, contour_j)` (missing `Simplify.cpp` code).  For
two distinct contours every segment of one is paired with every segment of
the other; within a single contour each segment is paired with every *later*
segment — a segment is never paired with itself, as recorded by the source
comment `FIXME: add self-intersecting cubics' T values to segment`
(ShapeOps.cpp line 267).  Segments are addressed as (contour index, segment
index); `lens` lists the segment count of each contour. -/
def segPairsTested (lens : List Nat) (i j : Nat) :
    List ((Nat × Nat) × (Nat × Nat)) :=
  (List.range (lens.getD i 0)).flatMap fun si =>
    (List.range (lens.getD j 0)).filterMap fun sj =>
      if i == j && !(si < sj) then none else some ((i, si), (j, sj))

/-- All segment pairs tested during the intersection phase of one `operate`
call: the contour pairs actually visited by the embedded loop, expanded by
the modelled per-pair segment enumeration. -/
def allTestedSegPairs (e : Engine) (one two : SkPath) :
    List ((Nat × Nat) × (Nat × Nat)) :=
  let contours := e.build one two
  let lens := contours.map List.length
  (intersectAll e contours.length).flatMap fun p => segPairsTested lens p.1 p.2

/-- Modelled from the spec: insertion of one intersection parameter with the
ε-merge of §4.2 — a parameter closer than `eps` to an already-recorded one
is merged into it (the first-computed parameter is kept, the spec's
lexicographic tie-break). -/
def insertT (eps t : ℚ) (ts : List ℚ) : List ℚ :=
  if ts.any fun u => |u - t| < eps then ts else ts ++ [t]

/-- Modelled from the spec: recording a list of computed intersection
parameters in order, merging parameters closer than `eps`. -/
def mergeTs (eps : ℚ) (raw : List ℚ) : List ℚ :=
  raw.foldl (fun acc t => insertT eps t acc) []

end ShapeOps

namespace Autofill

/-- The scanner of `autofill_scanner.cc`: a cursor over an ordered list of
already-parsed items.  Items are abstracted to ids; `cursor` and
`savedCursor` are offsets from `begin_`, and `end_` is the list length. -/
structure AutofillScanner where
  fields : List Nat
  cursor : Nat
  savedCursor : Nat
deriving DecidableEq

/-- The constructor `AutofillScanner(fields)`: both cursors start at
`begin_`. -/
def AutofillScanner.ofFields (fs : List Nat) : AutofillScanner :=
  ⟨fs, 0, 0⟩

/-- `AutofillScanner::IsEnd`: `cursor_ == end_`. -/
def AutofillScanner.IsEnd (s : AutofillScanner) : Bool :=
  s.cursor == s.fields.length

/-- `AutofillScanner::Cursor`: returns null (modelled `none`) when the
cursor is at the end, otherwise dereferences the cursor. -/
def AutofillScanner.Cursor (s : AutofillScanner) : Option Nat :=
  if s.IsEnd then none else s.fields.get? s.cursor

/-- `AutofillScanner::Advance`: `DCHECK(!IsEnd()); ++cursor_;`.  The second
component records whether the `DCHECK` precondition held: the debug build
aborts when it is false, the release build increments regardless. -/
def AutofillScanner.Advance (s : AutofillScanner) : AutofillScanner × Bool :=
  (⟨s.fields, s.cursor + 1, s.savedCursor⟩, !s.IsEnd)

end Autofill

namespace ShapeOps

/-- A derived (non-seeded) winding assignment: from an already-assigned
neighbor (`computeSum`) or from a containment check (`innerContourCheck`). -/
def IsDerived : WindingAssign → Prop
  | WindingAssign.seeded _ _ => False
  | WindingAssign.neighbor _ => True
  | WindingAssign.containment _ _ => True

/-- The winding-assignment discipline of spec §4.4: if any assignment was
recorded, the first one is the seed `initWinding(_, _, 0, 0)` — winding sum 0
for both operands — and every later one is derived, never guessed. -/
def AssignsSeededFirst : List WindingAssign → Prop
  | [] => True
  | a :: rest => a = WindingAssign.seeded 0 0 ∧ ∀ b ∈ rest, IsDerived b

/-- The invariant carried by the outer bridge loop: before the first seed the
assignment list is empty and `firstContour` is still set; afterwards the list
starts with the seed and continues with derived assignments only. -/
def AssignsInv (fc : Bool) (assigns : List WindingAssign) : Prop :=
  (fc = true ∧ assigns = []) ∨
    (fc = false ∧
      ∃ tail, assigns = WindingAssign.seeded 0 0 :: tail ∧ ∀ b ∈ tail, IsDerived b)

/-- Pairwise ε-separation of a list of intersection parameters. -/
def EpsSeparated (eps : ℚ) (l : List ℚ) : Prop :=
  ∀ a ∈ l, ∀ b ∈ l, a ≠ b → eps ≤ |a - b|

/-- A concrete input path used by the concrete runs below. -/
def pW : SkPath :=
  ⟨FillType.kWinding_FillType, []⟩

/-- A concrete line piece from the origin to (1, 0). -/
def pieceL : CurvePiece :=
  ⟨SkVerb.kLine_Verb, ⟨0, 0⟩, ⟨1, 0⟩⟩

/-- A concrete engine whose contour decomposition is empty: both input paths
contain no usable segments. -/
def eEmpty : Engine :=
  ⟨fun _ _ => [], fun _ => true, fun _ => Oracle.quiet⟩

/-- A concrete quiescent engine: one contour of one segment, no activity. -/
def eQ : Engine :=
  ⟨fun _ _ => [[0]], fun _ => true, fun _ => Oracle.quiet⟩

/-- A concrete engine whose run closes its single traced contour normally:
the top span is found and seeded, tracing emits one line piece, and the
second `findNextOp` finds no next segment, ending the contour; the line-verb
test then skips the extra `addCurveTo` and `close` finishes the contour.
The run returns `closable = true`. -/
def eT : Engine :=
  ⟨fun _ _ => [[0]], fun _ => true, fun k =>
    match k with
    | 0 => { Oracle.quiet with findTop := some (0, 0, 1) }
    | 1 => { Oracle.quiet with activeOp := true }
    | 2 => { Oracle.quiet with findNext := some (0, 0, 1), curve := pieceL }
    | _ => Oracle.quiet⟩

/-- A concrete engine whose run emits the same single line piece but stalls:
`findNextOp` marks the trace unsortable, the next segment is already done,
so the contour is left open, force-closed, and flagged not closable.  The
caller-visible result path is identical to the one produced by `eT`. -/
def eF : Engine :=
  ⟨fun _ _ => [[0]], fun _ => true, fun k =>
    match k with
    | 0 => { Oracle.quiet with findTop := some (0, 0, 1) }
    | 1 => { Oracle.quiet with activeOp := true }
    | 2 =>
      { Oracle.quiet with
          findNext := some (0, 0, 1)
          findNextUnsortable := true
          segDoneLoop := true
          curve := pieceL }
    | 3 => { Oracle.quiet with segDoneMin := true }
    | _ => Oracle.quiet⟩

/-- A concrete engine driving `findSortableTopNew` into its unimplemented
fallback: after the first contour is seeded, the topmost span's winding can
be computed neither from a neighbor (`windSum`/`computeSum` unassigned) nor
from the containment check, and the retry finds no sortable top while
reporting it unsortable — twice, so that both `SkASSERT(0)`
(ShapeOps.cpp:174) and `SkASSERT(!firstRetry)` (ShapeOps.cpp:193) fire. -/
def eAssert : Engine :=
  ⟨fun _ _ => [[0]], fun _ => true, fun k =>
    match k with
    | 0 => { Oracle.quiet with findTop := some (0, 0, 1) }
    | 2 => { Oracle.quiet with findTop := some (0, 0, 1) }
    | 3 => { Oracle.quiet with findTopUnsortable := true }
    | 4 => { Oracle.quiet with findTop := some (0, 0, 1) }
    | 5 => { Oracle.quiet with findTopUnsortable := true }
    | _ => Oracle.quiet⟩

/-- A concrete engine with a single one-segment contour, used to exhibit the
untested self-pair of a segment. -/
def eC5 : Engine :=
  ⟨fun _ _ => [[7]], fun _ => true, fun _ => Oracle.quiet⟩

end ShapeOps
namespace ShapeOps

theorem gActiveEdge_eq_rule (op : ShapeOp) (mF mT sF sT : Bool) :
    gActiveEdge op mF mT sF sT = (opPredicate op mF sF != opPredicate op mT sT) := by
  cases op <;> cases mF <;> cases mT <;> cases sF <;> cases sT <;> rfl

/-- C4: for every one of the four operators and every combination of winding
states on the two sides of an edge, the active-operator test marks the edge
as on the result boundary iff the operator's predicate applied to
(insideA, insideB) — inside(X) meaning the winding sum for operand X is
non-zero — differs between the side just before and the side just after the
edge; the hand-derived truth table `gActiveEdge` realizes exactly this
predicate-difference rule. -/
theorem activeOp_matches_boundary_rule (op : ShapeOp) (wAfrom wBfrom wAto wBto : Int) :
    IsActive op wAfrom wBfrom wAto wBto =
      (opPredicate op (wAfrom != 0) (wBfrom != 0) !=
        opPredicate op (wAto != 0) (wBto != 0)) := by
  unfold IsActive
  exact gActiveEdge_eq_rule op (wAfrom != 0) (wAto != 0) (wBfrom != 0) (wBto != 0)

/-- C7: for every pair of input paths and every operator, the result path
handed back by `operate` has the even-odd fill convention
(`result.setFillType(SkPath::kEvenOdd_FillType)` at ShapeOps.cpp:264),
regardless of the fill rules of the two input paths. -/
theorem operate_result_even_odd (e : Engine) (one two : SkPath) (op : ShapeOp) (fuel : Nat) :
    (operate e one two op fuel).fillType = FillType.kEvenOdd_FillType := by
  unfold operate operateRun
  cases e.build one two <;> rfl

/-- C10: if decomposing the two input paths yields an empty contour list,
`operate` returns immediately (`if (!currentPtr) return;` at
ShapeOps.cpp:277) with the result being an empty path that already carries
the even-odd fill type, and the intersection, coincidence/winding and
tracing phases are not entered. -/
theorem operate_empty_contours_early_return (e : Engine) (one two : SkPath) (op : ShapeOp)
    (fuel : Nat) (h : e.build one two = []) :
    operateRun e one two op fuel =
      ⟨⟨FillType.kEvenOdd_FillType, []⟩, true, [], false, false, false, [], 0, 0⟩ := by
  unfold operateRun
  rw [h]

theorem engine_eq_of_pointwise (e f : Engine)
    (hb : ∀ a b, e.build a b = f.build a b)
    (ha : ∀ n, e.addIntersectTs n = f.addIntersectTs n)
    (ho : ∀ n, e.oracle n = f.oracle n) : e = f := by
  cases e with
  | mk eb ea eo =>
    cases f with
    | mk fb fa fo =>
      have h1 : eb = fb := funext fun a => funext fun b => hb a b
      have h2 : ea = fa := funext ha
      have h3 : eo = fo := funext ho
      rw [h1, h2, h3]

/-- C8: `operate` is deterministic — two invocations with the same two input
paths and the same operator, over engines whose missing-code behaviour
agrees call for call, produce identical result paths and identical internal
closable flags; the embedding is a pure function of its inputs, with no
shared state across calls. -/
theorem operate_deterministic (e f : Engine) (one one2 two two2 : SkPath)
    (op op2 : ShapeOp) (fuel fuel2 : Nat)
    (hb : ∀ a b, e.build a b = f.build a b)
    (ha : ∀ n, e.addIntersectTs n = f.addIntersectTs n)
    (ho : ∀ n, e.oracle n = f.oracle n)
    (h1 : one = one2) (h2 : two = two2) (h3 : op = op2) (h4 : fuel = fuel2) :
    operate e one two op fuel = operate f one2 two2 op2 fuel2 ∧
      (operateRun e one two op fuel).closable =
        (operateRun f one2 two2 op2 fuel2).closable := by
  subst h1; subst h2; subst h3; subst h4
  rw [engine_eq_of_pointwise e f hb ha ho]
  exact ⟨rfl, rfl⟩

theorem operate_deterministic_witness :
    operate eQ pW pW ShapeOp.kUnion_Op 3 = operate eQ pW pW ShapeOp.kUnion_Op 3 ∧
      (operateRun eQ pW pW ShapeOp.kUnion_Op 3).closable =
        (operateRun eQ pW pW ShapeOp.kUnion_Op 3).closable :=
  operate_deterministic eQ eQ pW pW pW pW ShapeOp.kUnion_Op ShapeOp.kUnion_Op 3 3
    (fun _ _ => rfl) (fun _ => rfl) (fun _ => rfl) rfl rfl rfl rfl

/-- C2 (code bug): on the unsortable path the code reaches hard debug
assertions instead of the ray-cast fallback — in this concrete run the
winding of the found top span can be computed neither from a neighbor nor
from the containment check, and the retry finds no sortable top: the two
`SkASSERT(0)` hits at ShapeOps.cpp:174 (whose preceding comment admits the
fallback is unimplemented) plus the `SkASSERT(!firstRetry)` hit at
ShapeOps.cpp:193 are counted, and nothing is traced. -/
theorem unsortable_top_hits_assert :
    (operateRun eAssert pW pW ShapeOp.kXor_Op 12).asserts = 3 ∧
      (operateRun eAssert pW pW ShapeOp.kXor_Op 12).result.elems = [] := by decide

/-- C1 counterexample: two concrete runs produce the identical caller-visible
result path while their internal closable flags differ (`true` for `eT`,
`false` for `eF`), so no function of what `operate` returns recovers the
flag — the single entry point `operate` is `void` and does not return the
closable flag to the caller (the `bridgeOp(...)` result at ShapeOps.cpp:311
is discarded). -/
theorem closable_flag_not_returned_cex :
    operate eT pW pW ShapeOp.kXor_Op 12 = operate eF pW pW ShapeOp.kXor_Op 12 ∧
      (operateRun eT pW pW ShapeOp.kXor_Op 12).closable = true ∧
      (operateRun eF pW pW ShapeOp.kXor_Op 12).closable = false ∧
      ¬ ∃ recover : SkPath → Bool,
          ∀ (e : Engine) (one two : SkPath) (op : ShapeOp) (fuel : Nat),
            recover (operate e one two op fuel) = (operateRun e one two op fuel).closable := by
  refine ⟨by decide, by decide, by decide, ?_⟩
  rintro ⟨recover, hrec⟩
  have hT := hrec eT pW pW ShapeOp.kXor_Op 12
  have hF := hrec eF pW pW ShapeOp.kXor_Op 12
  have hEq : operate eT pW pW ShapeOp.kXor_Op 12 = operate eF pW pW ShapeOp.kXor_Op 12 := by
    decide
  rw [hEq] at hT
  rw [hT] at hF
  have hcT : (operateRun eT pW pW ShapeOp.kXor_Op 12).closable = true := by decide
  have hcF : (operateRun eF pW pW ShapeOp.kXor_Op 12).closable = false := by decide
  rw [hcT, hcF] at hF
  exact absurd hF (by decide)

end ShapeOps

namespace Autofill

/-- C9: whenever the scanner's cursor is at the end of the item list,
`Cursor()` returns a null pointer instead of reading past the end; when it
is not at the end the read is in bounds; and `Advance()` requires the cursor
not to be at the end as its `DCHECK(!IsEnd())` precondition. -/
theorem scanner_cursor_end_safe (s : AutofillScanner)
    (h : s.cursor ≤ s.fields.length) :
    (s.IsEnd = true → s.Cursor = none) ∧
      (s.IsEnd = false → (s.Cursor).isSome = true) ∧
      (s.Advance).2 = !s.IsEnd := by
  refine ⟨fun hE => ?_, fun hE => ?_, rfl⟩
  · simp [AutofillScanner.Cursor, hE]
  · have hne : s.cursor ≠ s.fields.length := by
      simpa [AutofillScanner.IsEnd] using hE
    have hlt : s.cursor < s.fields.length := lt_of_le_of_ne h hne
    simp only [AutofillScanner.Cursor, hE, if_false, Bool.false_eq_true,
      List.get?_eq_getElem?]
    rw [List.getElem?_eq_getElem hlt]
    rfl

theorem scanner_cursor_end_safe_witness :
    (⟨[7], 1, 0⟩ : AutofillScanner).cursor ≤ (⟨[7], 1, 0⟩ : AutofillScanner).fields.length ∧
      ((⟨[7], 1, 0⟩ : AutofillScanner).IsEnd = true →
          (⟨[7], 1, 0⟩ : AutofillScanner).Cursor = none) ∧
        ((⟨[7], 1, 0⟩ : AutofillScanner).IsEnd = false →
            ((⟨[7], 1, 0⟩ : AutofillScanner).Cursor).isSome = true) ∧
          ((⟨[7], 1, 0⟩ : AutofillScanner).Advance).2 = !(⟨[7], 1, 0⟩ : AutofillScanner).IsEnd :=
  ⟨by decide, scanner_cursor_end_safe ⟨[7], 1, 0⟩ (by decide)⟩

end Autofill

namespace ShapeOps

theorem bridgeInner_closable_stalls (e : Nat → Oracle) (fuel : Nat) :
    ∀ (cur : Cur) (chase : List Nat) (w : PathWrapper) (cl us : Bool) (st a k : Nat),
      cl = (st == 0) →
      (bridgeInner e cur chase w cl us st a k fuel).closable =
        ((bridgeInner e cur chase w cl us st a k fuel).stalls == 0) := by
  induction fuel with
  | zero =>
    intro cur chase w cl us st a k h
    simpa [bridgeInner] using h
  | succ n ih =>
    intro cur chase w cl us st a k h
    simp only [bridgeInner]
    by_cases ha : (e k).activeOp
    · simp only [ha, if_true]
      by_cases hs :
          (traceLoop e cur w us (k + 1) n).active &&
            !(traceLoop e cur w us (k + 1) n).wrapper.isClosed
      · simp only [hs, if_true]
        cases hc :
            (findChaseOpGo e chase ((traceLoop e cur w us (k + 1) n).k + 1) n).cur with
        | none => simp [hc]
        | some cur2 =>
          simp only [hc]
          exact ih _ _ _ _ _ _ _ _ (by simp)
      · simp only [hs, if_false]
        cases hc : (findChaseOpGo e chase (traceLoop e cur w us (k + 1) n).k n).cur with
        | none => simpa [hc] using h
        | some cur2 =>
          simp only [hc]
          exact ih _ _ _ _ _ _ _ _ h
    · simp only [ha, if_false]
      cases hm : (e k).markChase with
      | none =>
        simp only [hm]
        cases hc : (findChaseOpGo e chase (k + 1) n).cur with
        | none => simpa [hc] using h
        | some cur2 =>
          simp only [hc]
          exact ih _ _ _ _ _ _ _ _ h
      | some s =>
        simp only [hm]
        cases hc : (findChaseOpGo e (chase ++ [s]) (k + 1) n).cur with
        | none => simpa [hc] using h
        | some cur2 =>
          simp only [hc]
          exact ih _ _ _ _ _ _ _ _ h

end ShapeOps

namespace ShapeOps

theorem bridgeOuter_closable_stalls (e : Nat → Oracle) (fuel : Nat) :
    ∀ (fc fr cl us : Bool) (w : PathWrapper) (assigns : List WindingAssign) (st a k : Nat),
      cl = (st == 0) →
      (bridgeOuter e fc fr cl us w assigns st a k fuel).closable =
        ((bridgeOuter e fc fr cl us w assigns st a k fuel).stalls == 0) := by
  induction fuel with
  | zero =>
    intro fc fr cl us w assigns st a k h
    simpa [bridgeOuter] using h
  | succ n ih =>
    intro fc fr cl us w assigns st a k h
    simp only [bridgeOuter]
    cases hc : (findSortableTopNew e fc k n).cur with
    | none =>
      simp only [hc]
      by_cases ht : (findSortableTopNew e fc k n).topUnsortable
      · simp only [ht, if_true]
        exact ih _ _ _ _ _ _ _ _ _ h
      · simpa [ht] using h
    | some cur =>
      simp only [hc]
      exact ih _ _ _ _ _ _ _ _ _
        (bridgeInner_closable_stalls e n cur [] w cl us st 0 (findSortableTopNew e fc k n).k h)

/-- C1 (amended): `bridgeOp` computes the closable flag and hands it to its
caller `operate` together with the completed contours: the flag is `false`
exactly when at least one traced contour stalled and was left open (then
force-closed), and the emitted contours are returned either way; `operate`
itself, however, returns `void` — it writes only the result path and
discards the flag, so the closable bit never reaches `operate`'s caller. -/
theorem bridgeOp_closable_semantics (e : Engine) (one two : SkPath) (op : ShapeOp)
    (fuel : Nat) :
    (operateRun e one two op fuel).closable =
        ((operateRun e one two op fuel).stalls == 0) ∧
      operate e one two op fuel = (operateRun e one two op fuel).result := by
  refine ⟨?_, rfl⟩
  unfold operateRun
  cases hb : e.build one two with
  | nil => rfl
  | cons c cs =>
    simp only
    exact bridgeOuter_closable_stalls e.oracle fuel true false true false
      PathWrapper.init [] 0 0 0 rfl

theorem bridgeInner_wrapper_inactive (e : Nat → Oracle)
    (hq : ∀ n, (e n).activeOp = false) (fuel : Nat) :
    ∀ (cur : Cur) (chase : List Nat) (w : PathWrapper) (cl us : Bool) (st a k : Nat),
      (bridgeInner e cur chase w cl us st a k fuel).wrapper = w := by
  induction fuel with
  | zero => intro cur chase w cl us st a k; rfl
  | succ n ih =>
    intro cur chase w cl us st a k
    simp only [bridgeInner, hq k, if_false]
    cases hm : (e k).markChase with
    | none =>
      simp only [hm]
      cases hc : (findChaseOpGo e chase (k + 1) n).cur with
      | none => rfl
      | some cur2 => simp only [hc]; exact ih _ _ _ _ _ _ _ _
    | some s =>
      simp only [hm]
      cases hc : (findChaseOpGo e (chase ++ [s]) (k + 1) n).cur with
      | none => rfl
      | some cur2 => simp only [hc]; exact ih _ _ _ _ _ _ _ _

theorem bridgeOuter_wrapper_inactive (e : Nat → Oracle)
    (hq : ∀ n, (e n).activeOp = false) (fuel : Nat) :
    ∀ (fc fr cl us : Bool) (w : PathWrapper) (assigns : List WindingAssign) (st a k : Nat),
      (bridgeOuter e fc fr cl us w assigns st a k fuel).wrapper = w := by
  induction fuel with
  | zero => intro fc fr cl us w assigns st a k; rfl
  | succ n ih =>
    intro fc fr cl us w assigns st a k
    simp only [bridgeOuter]
    cases hc : (findSortableTopNew e fc k n).cur with
    | none =>
      simp only [hc]
      by_cases ht : (findSortableTopNew e fc k n).topUnsortable
      · simp only [ht, if_true]
        exact ih _ _ _ _ _ _ _ _ _
      · simp [ht]
    | some cur =>
      simp only [hc]
      rw [ih _ _ _ _ _ _ _ _ _]
      exact bridgeInner_wrapper_inactive e hq n cur [] w cl us st 0
        (findSortableTopNew e fc k n).k

theorem isActive_xor_self (u v : Int) : IsActive ShapeOp.kXor_Op u u v v = false := by
  unfold IsActive
  cases hu : u != 0 <;> cases hv : v != 0 <;> rfl

/-- C6: combining any path with itself under the xor operator yields the
empty result path — with both operands identical, every edge carries equal
winding sums for A and B (coincidence merging, spec §4.3), the xor
active-operator test is therefore false on every span, and the tracer emits
nothing, so `operate` returns the empty even-odd path. -/
theorem combine_xor_self_empty (e : Engine) (a : SkPath) (fuel : Nat) (wf wt : Nat → Int)
    (h : ∀ n, (e.oracle n).activeOp =
        IsActive ShapeOp.kXor_Op (wf n) (wf n) (wt n) (wt n)) :
    operate e a a ShapeOp.kXor_Op fuel = ⟨FillType.kEvenOdd_FillType, []⟩ := by
  have hq : ∀ n, (e.oracle n).activeOp = false := fun n => by
    rw [h n, isActive_xor_self]
  unfold operate operateRun
  cases hb : e.build a a with
  | nil => rfl
  | cons c cs =>
    simp only
    have hw : (bridgeOp e.oracle fuel).wrapper = PathWrapper.init :=
      bridgeOuter_wrapper_inactive e.oracle hq fuel true false true false
        PathWrapper.init [] 0 0 0
    simp [hw, PathWrapper.init]

theorem combine_xor_self_empty_witness :
    operate eQ pW pW ShapeOp.kXor_Op 5 = ⟨FillType.kEvenOdd_FillType, []⟩ :=
  combine_xor_self_empty eQ pW 5 (fun _ => 0) (fun _ => 0) (fun _ => rfl)

end ShapeOps

namespace ShapeOps

theorem fst_go_firstContour_true (e : Nat → Oracle) (first : Bool) (k fuel : Nat) :
    ((findSortableTopNewGo e true first k fuel).assign = none ∧
        (findSortableTopNewGo e true first k fuel).firstContour = true) ∨
      ((findSortableTopNewGo e true first k fuel).assign =
          some (WindingAssign.seeded 0 0) ∧
        (findSortableTopNewGo e true first k fuel).firstContour = false) := by
  cases fuel with
  | zero => exact Or.inl ⟨rfl, rfl⟩
  | succ n =>
    simp only [findSortableTopNewGo]
    cases (e k).findTop with
    | none => cases first <;> exact Or.inl ⟨rfl, rfl⟩
    | some cur => exact Or.inr ⟨rfl, rfl⟩

theorem fst_go_firstContour_false (e : Nat → Oracle) (fuel : Nat) :
    ∀ (first : Bool) (k : Nat),
      (findSortableTopNewGo e false first k fuel).firstContour = false ∧
        ((findSortableTopNewGo e false first k fuel).assign = none ∨
          ∃ b, (findSortableTopNewGo e false first k fuel).assign = some b ∧
            IsDerived b) := by
  induction fuel with
  | zero => intro first k; exact ⟨rfl, Or.inl rfl⟩
  | succ n ih =>
    intro first k
    simp only [findSortableTopNewGo]
    cases (e k).findTop with
    | none => cases first <;> exact ⟨rfl, Or.inl rfl⟩
    | some cur =>
      cases (e k).windSum with
      | none =>
        cases (e k).computeSum with
        | some s => exact ⟨rfl, Or.inr ⟨_, rfl, trivial⟩⟩
        | none =>
          cases (e k).innerContour with
          | none => exact ih false (k + 1)
          | some wv =>
            cases (e k).innerContourOpp with
            | none => exact ih false (k + 1)
            | some ow => exact ⟨rfl, Or.inr ⟨_, rfl, trivial⟩⟩
      | some s0 =>
        cases (e k).innerContour with
        | none => exact ih false (k + 1)
        | some wv =>
          cases (e k).innerContourOpp with
          | none => exact ih false (k + 1)
          | some ow => exact ⟨rfl, Or.inr ⟨_, rfl, trivial⟩⟩

theorem assignsInv_wf (fc : Bool) (assigns : List WindingAssign)
    (h : AssignsInv fc assigns) : AssignsSeededFirst assigns := by
  rcases h with ⟨_, rfl⟩ | ⟨_, tail, rfl, htail⟩
  · trivial
  · exact ⟨rfl, htail⟩

theorem assignsInv_step (e : Nat → Oracle) (fc : Bool) (assigns : List WindingAssign)
    (k fuel : Nat) (h : AssignsInv fc assigns) :
    AssignsInv ((findSortableTopNewGo e fc true k fuel).firstContour)
      (assigns ++ (findSortableTopNewGo e fc true k fuel).assign.toList) := by
  rcases h with ⟨hfc, hass⟩ | ⟨hfc, tail, hass, htail⟩
  · subst hfc; subst hass
    rcases fst_go_firstContour_true e true k fuel with ⟨ha, hf⟩ | ⟨ha, hf⟩
    · exact Or.inl ⟨hf, by simp [ha]⟩
    · refine Or.inr ⟨hf, [], by simp [ha], by simp⟩
  · subst hfc; subst hass
    obtain ⟨hf, hao⟩ := fst_go_firstContour_false e fuel true k
    rcases hao with ha | ⟨b, ha, hb⟩
    · exact Or.inr ⟨hf, tail, by simp [ha], htail⟩
    · refine Or.inr ⟨hf, tail ++ [b], by simp [ha], ?_⟩
      intro x hx
      rcases List.mem_append.mp hx with hx | hx
      · exact htail x hx
      · rcases List.mem_singleton.mp hx with rfl
        exact hb

theorem bridgeOuter_assigns_inv (e : Nat → Oracle) (fuel : Nat) :
    ∀ (fc fr cl us : Bool) (w : PathWrapper) (assigns : List WindingAssign) (st a k : Nat),
      AssignsInv fc assigns →
      AssignsSeededFirst ((bridgeOuter e fc fr cl us w assigns st a k fuel).assigns) := by
  induction fuel with
  | zero =>
    intro fc fr cl us w assigns st a k h
    exact assignsInv_wf fc assigns h
  | succ n ih =>
    intro fc fr cl us w assigns st a k h
    simp only [bridgeOuter, findSortableTopNew]
    have hstep := assignsInv_step e fc assigns k n h
    cases hc : (findSortableTopNewGo e fc true k n).cur with
    | none =>
      simp only [hc]
      by_cases ht : (findSortableTopNewGo e fc true k n).topUnsortable
      · simp only [ht, if_true]
        exact ih _ _ _ _ _ _ _ _ _ (by simpa [findSortableTopNew] using hstep)
      · simp only [ht, if_false]
        exact assignsInv_wf _ _ hstep
    | some cur =>
      simp only [hc]
      exact ih _ _ _ _ _ _ _ _ _ (by simpa [findSortableTopNew] using hstep)

/-- C3: in any run of the winding-assignment phase, the very first recorded
winding assignment (if any) is the seed of the very first processed span of
the very first contour with winding sum 0 for both operands
(`initWinding(index, endIndex, 0, 0)`), and every other recorded assignment
is derived from an already-assigned neighbor (`computeSum`) or from a
containment check (`innerContourCheck`), never guessed. -/
theorem winding_first_seeded_rest_derived (e : Engine) (one two : SkPath) (op : ShapeOp)
    (fuel : Nat) :
    AssignsSeededFirst ((operateRun e one two op fuel).assigns) := by
  unfold operateRun
  cases hb : e.build one two with
  | nil => trivial
  | cons c cs =>
    simp only
    exact bridgeOuter_assigns_inv e.oracle fuel true false true false
      PathWrapper.init [] 0 0 0 (Or.inl ⟨rfl, rfl⟩)

end ShapeOps

namespace ShapeOps

theorem intersectInner_mem (e : Engine) (i n : Nat)
    (htrue : ∀ m, e.addIntersectTs m = true) :
    ∀ (fuel j kp j2 : Nat), j ≤ j2 → j2 < n → n - j ≤ fuel →
      (i, j2) ∈ (intersectInner e i j n kp fuel).1 := by
  intro fuel
  induction fuel with
  | zero =>
    intro j kp j2 hle hlt hf
    omega
  | succ m ih =>
    intro j kp j2 hle hlt hf
    simp only [intersectInner, htrue kp, Bool.true_and]
    by_cases hend : j + 1 = n
    · have hj : j2 = j := by omega
      subst hj
      simp [hend]
    · have hne : (j + 1 == n) = false := by
        simp [hend]
      simp only [hne, Bool.not_false, if_true]
      rcases Nat.eq_or_lt_of_le hle with rfl | hlt2
      · exact List.mem_cons_self _ _
      · exact List.mem_cons_of_mem _ (ih (j + 1) (kp + 1) j2 hlt2 hlt (by omega))

theorem intersectOuter_mem (e : Engine) (n : Nat)
    (htrue : ∀ m, e.addIntersectTs m = true) :
    ∀ (fuel i kp i2 j2 : Nat), i ≤ i2 → i2 ≤ j2 → j2 < n → n - i ≤ fuel →
      (i2, j2) ∈ (intersectOuter e i n kp fuel).1 := by
  intro fuel
  induction fuel with
  | zero =>
    intro i kp i2 j2 h1 h2 h3 hf
    omega
  | succ m ih =>
    intro i kp i2 j2 h1 h2 h3 hf
    simp only [intersectOuter]
    by_cases hend : i + 1 = n
    · have hi : i2 = i := by omega
      simp only [hend, beq_self_eq_true, Bool.not_true, if_false]
      rw [hi]
      exact intersectInner_mem e i n htrue n i kp j2 (by omega) h3 (by omega)
    · have hne : (i + 1 == n) = false := by
        simp [hend]
      simp only [hne, Bool.not_false, if_true]
      rcases Nat.eq_or_lt_of_le h1 with heq | hlt2
      · rw [← heq]
        exact List.mem_append_left _
          (intersectInner_mem e i n htrue n i kp j2 (by omega) h3 (by omega))
      · exact List.mem_append_right _
          (ih (i + 1) (intersectInner e i i n kp n).2 i2 j2 hlt2 h2 h3 (by omega))

theorem segPairsTested_mem (lens : List Nat) (i j si sj : Nat)
    (hsi : si < lens.getD i 0) (hsj : sj < lens.getD j 0)
    (hdist : i ≠ j ∨ si < sj) :
    ((i, si), (j, sj)) ∈ segPairsTested lens i j := by
  unfold segPairsTested
  rw [List.mem_flatMap]
  refine ⟨si, List.mem_range.mpr hsi, ?_⟩
  rw [List.mem_filterMap]
  refine ⟨sj, List.mem_range.mpr hsj, ?_⟩
  have : (i == j && !(si < sj : Bool)) = false := by
    rcases hdist with hd | hd
    · simp [hd]
    · simp [hd]
  rw [this]
  rfl

end ShapeOps

namespace ShapeOps

theorem insertT_sep (eps t : ℚ) (ts : List ℚ) (h : EpsSeparated eps ts) :
    EpsSeparated eps (insertT eps t ts) := by
  unfold insertT
  by_cases hany : (ts.any fun u => |u - t| < eps) = true
  · rw [if_pos hany]
    exact h
  · rw [if_neg hany]
    have hfar : ∀ u ∈ ts, ¬(|u - t| < eps) := by
      intro u hu hc
      refine hany ?_
      simp only [List.any_eq_true, decide_eq_true_eq]
      exact ⟨u, hu, hc⟩
    intro a ha b hb hab
    rcases List.mem_append.mp ha with ha' | ha' <;>
      rcases List.mem_append.mp hb with hb' | hb'
    · exact h a ha' b hb' hab
    · rcases List.mem_singleton.mp hb' with rfl
      exact le_of_not_lt (hfar a ha')
    · rcases List.mem_singleton.mp ha' with rfl
      rw [abs_sub_comm]
      exact le_of_not_lt (hfar b hb')
    · rcases List.mem_singleton.mp ha' with rfl
      rcases List.mem_singleton.mp hb' with rfl
      exact absurd rfl hab

end ShapeOps

namespace ShapeOps

theorem mergeTs_go_sep (eps : ℚ) (raw : List ℚ) :
    ∀ acc, EpsSeparated eps acc →
      EpsSeparated eps (raw.foldl (fun acc t => insertT eps t acc) acc) := by
  induction raw with
  | nil => intro acc h; exact h
  | cons r rs ih =>
    intro acc h
    exact ih (insertT eps r acc) (insertT_sep eps r acc h)

theorem mergeTs_sep (eps : ℚ) (raw : List ℚ) : EpsSeparated eps (mergeTs eps raw) := by
  unfold mergeTs
  refine mergeTs_go_sep eps raw [] ?_
  intro a ha
  cases ha

theorem insertT_mem_mono (eps tp : ℚ) (ts : List ℚ) (u : ℚ) (hu : u ∈ ts) :
    u ∈ insertT eps tp ts := by
  unfold insertT
  split
  · exact hu
  · exact List.mem_append_left _ hu

theorem foldl_insert_mem_mono (eps : ℚ) (raw : List ℚ) :
    ∀ (acc : List ℚ) (u : ℚ), u ∈ acc →
      u ∈ raw.foldl (fun acc t => insertT eps t acc) acc := by
  induction raw with
  | nil => intro acc u hu; exact hu
  | cons r rs ih =>
    intro acc u hu
    exact ih (insertT eps r acc) u (insertT_mem_mono eps r acc u hu)

theorem insertT_close (eps t : ℚ) (ts : List ℚ) (hpos : 0 < eps) :
    ∃ u ∈ insertT eps t ts, |u - t| < eps := by
  unfold insertT
  by_cases hany : (ts.any fun u => |u - t| < eps) = true
  · rw [if_pos hany]
    simp only [List.any_eq_true, decide_eq_true_eq] at hany
    exact hany
  · rw [if_neg hany]
    refine ⟨t, List.mem_append_right _ (List.mem_singleton.mpr rfl), ?_⟩
    simpa using hpos

theorem mergeTs_go_covers (eps : ℚ) (hpos : 0 < eps) (raw : List ℚ) :
    ∀ (acc : List ℚ) (t : ℚ), t ∈ raw →
      ∃ u ∈ raw.foldl (fun acc t => insertT eps t acc) acc, |u - t| < eps := by
  induction raw with
  | nil => intro acc t ht; cases ht
  | cons r rs ih =>
    intro acc t ht
    rcases List.mem_cons.mp ht with rfl | htr
    · obtain ⟨u, hu, hc⟩ := insertT_close eps t acc hpos
      exact ⟨u, foldl_insert_mem_mono eps rs (insertT eps t acc) u hu, hc⟩
    · exact ih (insertT eps r acc) t htr

/-- C5 (amended): the intersection phase visits every unordered contour pair
drawn from the full contour list (including a contour paired with itself),
and within each visited pair every pair of *distinct* segments — including
pairs from the same operand and the same contour — is tested; a segment is
never paired with itself (self-intersecting curves are not handled, per the
source comment at ShapeOps.cpp:267).  Intersection parameters closer than
the fixed tolerance ε are merged into one recorded intersection: recorded
parameters stay pairwise ε-separated, and every computed parameter lies
within ε of a recorded one. -/
theorem intersection_pair_coverage_and_merge :
    (∀ (e : Engine) (n : Nat), (∀ m, e.addIntersectTs m = true) →
        ∀ i j, i ≤ j → j < n → (i, j) ∈ intersectAll e n) ∧
      (∀ (lens : List Nat) (i j si sj : Nat), si < lens.getD i 0 →
          sj < lens.getD j 0 → (i ≠ j ∨ si < sj) →
          ((i, si), (j, sj)) ∈ segPairsTested lens i j) ∧
      (∀ (eps : ℚ) (raw : List ℚ), EpsSeparated eps (mergeTs eps raw)) ∧
      (∀ (eps : ℚ) (raw : List ℚ) (t : ℚ), 0 < eps → t ∈ raw →
          ∃ u ∈ mergeTs eps raw, |u - t| < eps) := by
  refine ⟨?_, segPairsTested_mem, mergeTs_sep, ?_⟩
  · intro e n htrue i j hij hjn
    unfold intersectAll
    exact intersectOuter_mem e n htrue n 0 0 i j (Nat.zero_le i) hij hjn (by omega)
  · intro eps raw t hpos ht
    exact mergeTs_go_covers eps hpos raw [] t ht

theorem intersection_pair_coverage_and_merge_witness :
    (0, 1) ∈ intersectAll eQ 2 ∧
      ((0, 0), (0, 1)) ∈ segPairsTested [2] 0 0 ∧
      EpsSeparated 1 (mergeTs 1 [0, 2]) ∧
      ∃ u ∈ mergeTs 1 [0, (1 : ℚ) / 2], |u - 0| < 1 :=
  ⟨intersection_pair_coverage_and_merge.1 eQ 2 (fun _ => rfl) 0 1 (by omega) (by omega),
    intersection_pair_coverage_and_merge.2.1 [2] 0 0 0 1 (by norm_num) (by norm_num)
      (Or.inr (by omega)),
    intersection_pair_coverage_and_merge.2.2.1 1 [0, 2],
    intersection_pair_coverage_and_merge.2.2.2 1 [0, (1 : ℚ) / 2] 0 (by norm_num)
      (List.mem_cons_self 0 [(1 : ℚ) / 2])⟩

/-- C5 counterexample: a concrete input whose single contour holds a single
segment — the contour self-pair (0, 0) is visited by the intersection loop,
yet no segment pair at all is tested: in particular the pair of segment
(0, 0) with itself, which the claim asserts is tested, is not. -/
theorem segment_self_pair_not_tested_cex :
    eC5.build pW pW = [[7]] ∧
      intersectAll eC5 (eC5.build pW pW).length = [(0, 0)] ∧
      allTestedSegPairs eC5 pW pW = [] ∧
      ((0, 0), (0, 0)) ∉ allTestedSegPairs eC5 pW pW := by
  exact ⟨rfl, by decide, by decide, by decide⟩

end ShapeOps

namespace ShapeOps

theorem operate_empty_contours_early_return_witness :
    eEmpty.build pW pW = [] ∧
      operateRun eEmpty pW pW ShapeOp.kUnion_Op 5 =
        ⟨⟨FillType.kEvenOdd_FillType, []⟩, true, [], false, false, false, [], 0, 0⟩ :=
  ⟨rfl, operate_empty_contours_early_return eEmpty pW pW ShapeOp.kUnion_Op 5 rfl⟩

end ShapeOps
